import Mathlib

/-
  Shallow embedding of asmjit/core/logging.h (FormatOptions, Logger,
  FileLogger, StringLogger, Logging helpers) and proofs about it.

  Machine integers are modelled as Nat with explicit reduction modulo
  2^32 (uint32_t) or 2^8 (uint8_t) exactly where the source performs a
  narrowing conversion or a bitwise complement; size_t is modelled as
  Nat with SIZE_MAX = 2^64 - 1.
-/

namespace Asmjit

/-- uint32_t value reduction (2^32). -/
def mask32 (n : Nat) : Nat := n % 4294967296

/-- uint8_t value reduction (2^8); models `uint8_t(n)` casts. -/
def mask8 (n : Nat) : Nat := n % 256

/-- size_t SIZE_MAX on the 64-bit target. -/
def SIZE_MAX : Nat := 18446744073709551615

/-- Modelled from the spec: `Error` result code; operations return a
result code, success is `kErrorOk` (0). The full ErrorCode enum is
declared outside src/; only success and out-of-memory are needed. -/
def kErrorOk : Nat := 0

/-- Modelled from the spec: out-of-memory result code, the only failure
mode of a growing buffer sink. -/
def kErrorOutOfMemory : Nat := 1

/-- FormatOptions: `_flags` is a uint32_t bitset, `_indentation` a fixed
4-entry table of uint8_t widths indexed by IndentationType. -/
structure FormatOptions where
  _flags : Nat
  _indentation : Fin 4 → Nat
deriving DecidableEq

/-- `constexpr FormatOptions()` : flags 0, indentation all 0. -/
def FormatOptions.init : FormatOptions :=
  ⟨0, fun _ => 0⟩

/-- `reset()` : sets `_flags = 0` and each of the four table entries to 0. -/
def FormatOptions.reset (o : FormatOptions) : FormatOptions :=
  { o with
    _flags := 0
    _indentation :=
      Function.update (Function.update (Function.update
        (Function.update o._indentation 0 0) 1 0) 2 0) 3 0 }

/-- `flags()` accessor. -/
def FormatOptions.flags (o : FormatOptions) : Nat := o._flags

/-- `hasFlag(flag)` : `(_flags & flag) != 0`. -/
def FormatOptions.hasFlag (o : FormatOptions) (flag : Nat) : Bool :=
  (o._flags &&& mask32 flag) != 0

/-- `setFlags(flags)` : `_flags = flags`. -/
def FormatOptions.setFlags (o : FormatOptions) (m : Nat) : FormatOptions :=
  { o with _flags := mask32 m }

/-- `addFlags(flags)` : `_flags |= flags`. -/
def FormatOptions.addFlags (o : FormatOptions) (m : Nat) : FormatOptions :=
  { o with _flags := o._flags ||| mask32 m }

/-- `clearFlags(flags)` : `_flags &= ~flags`, 32-bit complement. -/
def FormatOptions.clearFlags (o : FormatOptions) (m : Nat) : FormatOptions :=
  { o with _flags := o._flags &&& (4294967295 ^^^ mask32 m) }

/-- `indentation(type)` accessor: `_indentation[type]`. -/
def FormatOptions.indentation (o : FormatOptions) (t : Fin 4) : Nat :=
  o._indentation t

/-- `setIndentation(type, n)` : `_indentation[type] = uint8_t(n)`. -/
def FormatOptions.setIndentation (o : FormatOptions) (t : Fin 4) (n : Nat) :
    FormatOptions :=
  { o with _indentation := Function.update o._indentation t (mask8 n) }

/-- `resetIndentation(type)` : `_indentation[type] = uint8_t(0)`. -/
def FormatOptions.resetIndentation (o : FormatOptions) (t : Fin 4) :
    FormatOptions :=
  { o with _indentation := Function.update o._indentation t (mask8 0) }

/-- Modelled from the spec: the bytes a sink primitive `_log(data, size)`
delivers for a call. The definitions of the concrete `_log` overrides are
not under src/; per the spec a span is treated as null-terminated when
`size` is the maximum representable value, otherwise `size` bytes are
taken. Caller memory starting at the data pointer is modelled as the
finite byte list `data`. -/
def resolveSpan (data : List Nat) (size : Nat) : List Nat :=
  if size = SIZE_MAX then data.takeWhile (fun b => b ≠ 0) else data.take size

/-- Logger base state: its only data member is `_options`. -/
structure Logger where
  _options : FormatOptions
deriving DecidableEq

/-- `options()` accessor. -/
def Logger.options (l : Logger) : FormatOptions := l._options

/-- `Logger::flags()` : `_options.flags()`. -/
def Logger.flags (l : Logger) : Nat := l._options.flags

/-- `Logger::hasFlag(flag)` : `_options.hasFlag(flag)`. -/
def Logger.hasFlag (l : Logger) (flag : Nat) : Bool := l._options.hasFlag flag

/-- `Logger::setFlags(flags)` : `_options.setFlags(flags)`. -/
def Logger.setFlags (l : Logger) (m : Nat) : Logger :=
  { l with _options := l._options.setFlags m }

/-- `Logger::addFlags(flags)` : `_options.addFlags(flags)`. -/
def Logger.addFlags (l : Logger) (m : Nat) : Logger :=
  { l with _options := l._options.addFlags m }

/-- `Logger::clearFlags(flags)` : `_options.clearFlags(flags)`. -/
def Logger.clearFlags (l : Logger) (m : Nat) : Logger :=
  { l with _options := l._options.clearFlags m }

/-- `Logger::indentation(type)` : `_options.indentation(type)`. -/
def Logger.indentation (l : Logger) (t : Fin 4) : Nat :=
  l._options.indentation t

/-- `Logger::setIndentation(type, n)` : `_options.setIndentation(type, n)`. -/
def Logger.setIndentation (l : Logger) (t : Fin 4) (n : Nat) : Logger :=
  { l with _options := l._options.setIndentation t n }

/-- `Logger::resetIndentation(type)` : `_options.resetIndentation(type)`. -/
def Logger.resetIndentation (l : Logger) (t : Fin 4) : Logger :=
  { l with _options := l._options.resetIndentation t }

/-- `Logger::log(data, size = SIZE_MAX)` : `return _log(data, size)`.
The virtual `_log` is a parameter: any sink primitive taking the span
and returning a new sink state with a result code. -/
def Logger.log {σ : Type} (sinkLog : List Nat → Nat → σ × Nat)
    (data : List Nat) (size : Nat := SIZE_MAX) : σ × Nat :=
  sinkLog data size

/-- StringLogger state: the owned `_content` String, as a byte list. -/
structure StringLogger where
  _content : List Nat
deriving DecidableEq

/-- `StringLogger::StringLogger()` : empty content. -/
def StringLogger.init : StringLogger := ⟨[]⟩

/-- `data()` : the buffer contents. -/
def StringLogger.data (st : StringLogger) : List Nat := st._content

/-- `size()` : the buffer length. -/
def StringLogger.size (st : StringLogger) : Nat := st._content.length

/-- `clear()` : resets content length to zero. -/
def StringLogger.clear (st : StringLogger) : StringLogger := ⟨[]⟩

/-- Modelled from the spec: `StringLogger::_log` — its definition is not
under src/. It appends the resolved span to `_content`; growth failure
(modelled as the new length exceeding a memory capacity `cap`) is the
only failure mode, reporting out-of-memory without losing accumulated
content or partially appending. -/
def StringLogger.logOne (cap : Nat) (st : StringLogger)
    (data : List Nat) (size : Nat) : StringLogger × Nat :=
  let bytes := resolveSpan data size
  if st._content.length + bytes.length ≤ cap then
    (⟨st._content ++ bytes⟩, kErrorOk)
  else
    (st, kErrorOutOfMemory)

/-- Runs a sequence of `_log` calls on a StringLogger, returning the final
state and the list of result codes in call order. -/
def StringLogger.runLogs (cap : Nat) (st : StringLogger) :
    List (List Nat × Nat) → StringLogger × List Nat
  | [] => (st, [])
  | c :: cs =>
    let r := StringLogger.logOne cap st c.1 c.2
    let rest := StringLogger.runLogs cap r.1 cs
    (rest.1, r.2 :: rest.2)

/-- FileLogger state: the `_file` handle, modelled as an optional stream
whose written content is a byte list (`none` is the null handle). -/
structure FileLogger where
  _file : Option (List Nat)
deriving DecidableEq

/-- `FileLogger(FILE* file = nullptr)`. -/
def FileLogger.init (file : Option (List Nat) := none) : FileLogger :=
  ⟨file⟩

/-- `file()` accessor. -/
def FileLogger.file (l : FileLogger) : Option (List Nat) := l._file

/-- `setFile(file)` : `_file = file`. -/
def FileLogger.setFile (l : FileLogger) (f : Option (List Nat)) : FileLogger :=
  { l with _file := f }

/-- Modelled from the spec: `FileLogger::_log` — its definition is not
under src/. If the handle is null it reports success while performing no
I/O; otherwise it writes the resolved span to the stream. -/
def FileLogger.logOne (l : FileLogger) (data : List Nat) (size : Nat) :
    FileLogger × Nat :=
  match l._file with
  | none => (l, kErrorOk)
  | some s => (⟨some (s ++ resolveSpan data size)⟩, kErrorOk)

/-- Decimal placeholder token for an unnamed label id, an `L<N>` form. -/
def labelPlaceholder (labelId : Nat) : String :=
  "L" ++ Nat.repr labelId

/-- Generic kind+ordinal token for a register that the emitter context
cannot resolve to a physical name. -/
def regPlaceholder (regType regId : Nat) : String :=
  "r" ++ Nat.repr regType ++ "_" ++ Nat.repr regId

/-- Modelled from the spec: `Logging::formatLabel` — its definition is not
under src/. Renders a label by id into `sb`; the emitter context is
modelled as a partial name lookup; unresolved/unknown ids render a
deterministic placeholder token rather than failing. -/
def Logging.formatLabel (sb : String) (flags : Nat)
    (labelNames : Nat → Option String) (labelId : Nat) : String × Nat :=
  match labelNames labelId with
  | some nm => (sb ++ nm, kErrorOk)
  | none => (sb ++ labelPlaceholder labelId, kErrorOk)

/-- Modelled from the spec: `Logging::formatRegister` — its definition is
not under src/. Renders a register by kind+id into `sb`; the emitter
context's physical-name resolution is modelled as a partial lookup;
unresolved ids render a generic kind+ordinal token and never fail. -/
def Logging.formatRegister (sb : String) (flags : Nat)
    (physNames : Nat → Nat → Nat → Option String)
    (archId regType regId : Nat) : String × Nat :=
  match physNames archId regType regId with
  | some nm => (sb ++ nm, kErrorOk)
  | none => (sb ++ regPlaceholder regType regId, kErrorOk)

/-- `Logging::kMaxInstLineSize` (fixed constant from the source). -/
def Logging.kMaxInstLineSize : Nat := 44

/-- `Logging::kMaxBinarySize` (fixed constant from the source). -/
def Logging.kMaxBinarySize : Nat := 26

/-- Hex digit character for a nibble. -/
def hexDigit (n : Nat) : Char :=
  if n < 10 then Char.ofNat (48 + n) else Char.ofNat (87 + n)

/-- Two hex characters for one byte. -/
def byteHex (b : Nat) : List Char :=
  [hexDigit (b / 16 % 16), hexDigit (b % 16)]

/-- Hex dump of a byte list, two hex characters per byte, no separators. -/
def hexDump (bs : List Nat) : String :=
  String.mk (bs.map byteHex).flatten

/-- Modelled from the spec: `Logging::formatLine` — its definition is not
under src/ (only the width constants are declared there). Left-aligns the
instruction text to the fixed target width `kMaxInstLineSize`; if the
machine-code flag is set, appends a hex dump of the encoded bytes bounded
to `kMaxBinarySize` hex characters (deterministic truncation of longer
encodings); then appends the trailing comment. -/
def Logging.formatLine (instText : String) (showMachineCode : Bool)
    (bin : List Nat) (comment : String) : String :=
  let padded := instText ++
    String.mk (List.replicate (Logging.kMaxInstLineSize - instText.length) ' ')
  let hexPart :=
    if showMachineCode then hexDump (bin.take (Logging.kMaxBinarySize / 2))
    else ""
  padded ++ hexPart ++ comment

/-! Helper lemmas shared by several claims. -/

theorem mask32_lt (n : Nat) : mask32 n < 4294967296 :=
  Nat.mod_lt _ (by norm_num)

theorem testBit_mask32_high (n i : Nat) (h : 32 ≤ i) :
    (mask32 n).testBit i = false :=
  Nat.testBit_lt_two_pow
    (lt_of_lt_of_le (mask32_lt n)
      (Nat.pow_le_pow_right (by norm_num : 0 < 2) h))

theorem testBit_high_of_lt {f i : Nat} (hf : f < 4294967296) (h : 32 ≤ i) :
    f.testBit i = false :=
  Nat.testBit_lt_two_pow
    (lt_of_lt_of_le hf (Nat.pow_le_pow_right (by norm_num : 0 < 2) h))

theorem testBit_allones (i : Nat) :
    Nat.testBit 4294967295 i = decide (i < 32) := by
  have h32 : (4294967295 : Nat) = 2 ^ 32 - 1 := by norm_num
  rw [h32, Nat.testBit_two_pow_sub_one]

theorem testBit_comp32 (m i : Nat) :
    ((4294967295 ^^^ mask32 m)).testBit i
      = (decide (i < 32) && !(mask32 m).testBit i) := by
  rcases Nat.lt_or_ge i 32 with hi | hi
  · simp [Nat.testBit_xor, testBit_allones, hi]
  · simp [Nat.testBit_xor, testBit_allones, Nat.not_lt.mpr hi,
      testBit_mask32_high m i hi]

/-- C6: a default-constructed FormatOptions has zero flags and zero
indentation for every category, and `reset()` returns any FormatOptions
to exactly that default state. -/
theorem C6_default_and_reset :
    FormatOptions.init.flags = 0
      ∧ (∀ c : Fin 4, FormatOptions.init.indentation c = 0)
      ∧ (∀ o : FormatOptions, o.reset = FormatOptions.init) := by
  refine ⟨rfl, fun c => rfl, fun o => ?_⟩
  unfold FormatOptions.reset FormatOptions.init
  congr 1
  funext x
  fin_cases x <;> simp [Function.update]

/-- C5: `setIndentation(c, n)` and `resetIndentation(c)` leave the
indentation of every other category and the flags bitset unchanged
(for categories within the 4-entry table bound). -/
theorem C5_indentation_frame (o : FormatOptions) (c c' : Fin 4) (n : Nat)
    (h : c' ≠ c) :
    (o.setIndentation c n).indentation c' = o.indentation c'
      ∧ (o.setIndentation c n).flags = o.flags
      ∧ (o.resetIndentation c).indentation c' = o.indentation c'
      ∧ (o.resetIndentation c).flags = o.flags := by
  refine ⟨?_, rfl, ?_, rfl⟩ <;>
    simp [FormatOptions.setIndentation, FormatOptions.resetIndentation,
      FormatOptions.indentation, Function.update, h]

theorem C5_indentation_frame_witness :
    (FormatOptions.init.setIndentation 0 5).indentation 1
        = FormatOptions.init.indentation 1
      ∧ (FormatOptions.init.setIndentation 0 5).flags = FormatOptions.init.flags
      ∧ (FormatOptions.init.resetIndentation 0).indentation 1
        = FormatOptions.init.indentation 1
      ∧ (FormatOptions.init.resetIndentation 0).flags
        = FormatOptions.init.flags :=
  C5_indentation_frame FormatOptions.init 0 1 5 (by decide)

/-- C9: `setIndentation(c, n)` stores the width through a `uint8_t` cast,
so reading it back yields `n % 256`; in particular a width of 256 reads
back as 0, not 256. -/
theorem C9_indentation_truncation (o : FormatOptions) (c : Fin 4) (n : Nat) :
    (o.setIndentation c n).indentation c = n % 256
      ∧ (o.setIndentation c 256).indentation c = 0
      ∧ (o.setIndentation c 256).indentation c ≠ 256 := by
  refine ⟨?_, ?_, ?_⟩ <;>
    simp [FormatOptions.setIndentation, FormatOptions.indentation,
      Function.update, mask8]

/-- C4 counterexample: `addFlags` and `clearFlags` do not commute with
each other on overlapping masks; with initial flags 0 and mask 1,
add-then-clear yields 0 while clear-then-add yields 1. -/
theorem C4_add_clear_noncommutative :
    ((FormatOptions.init.addFlags 1).clearFlags 1).flags
      ≠ ((FormatOptions.init.clearFlags 1).addFlags 1).flags := by
  decide

/-- C4 (amended): `addFlags(m)` ORs the mask in (bit i of the result is
bit i of the old flags OR bit i of the mask, so it only sets bits of m
and every bit set before stays set); `clearFlags(m)` ANDs with the
complement (bit i of the result is bit i of the old flags AND NOT bit i
of the mask, so it only unsets bits of m and bits outside m are
unchanged); each operation is idempotent; `addFlags` commutes with
`addFlags`, `clearFlags` commutes with `clearFlags`, and `addFlags a`
commutes with `clearFlags b` whenever the (32-bit) masks are
bit-disjoint — not for overlapping masks. -/
theorem C4_flag_algebra (o : FormatOptions) (a b i : Nat)
    (hf : o.flags < 4294967296) :
    ((o.addFlags a).flags.testBit i
        = (o.flags.testBit i || (mask32 a).testBit i))
      ∧ ((o.clearFlags b).flags.testBit i
        = (o.flags.testBit i && !(mask32 b).testBit i))
      ∧ ((o.addFlags a).addFlags a = o.addFlags a)
      ∧ ((o.clearFlags b).clearFlags b = o.clearFlags b)
      ∧ ((o.addFlags a).addFlags b = (o.addFlags b).addFlags a)
      ∧ ((o.clearFlags a).clearFlags b = (o.clearFlags b).clearFlags a)
      ∧ ((mask32 a &&& mask32 b) = 0 →
          (o.addFlags a).clearFlags b = (o.clearFlags b).addFlags a) := by
  refine ⟨?_, ?_, ?_, ?_, ?_, ?_, ?_⟩
  · simp [FormatOptions.addFlags, FormatOptions.flags, Nat.testBit_or]
  · rcases Nat.lt_or_ge i 32 with hi | hi
    · simp [FormatOptions.clearFlags, FormatOptions.flags, Nat.testBit_and,
        Nat.testBit_xor, testBit_allones, hi]
    · have hfb : o._flags.testBit i = false := testBit_high_of_lt hf hi
      simp [FormatOptions.clearFlags, FormatOptions.flags, Nat.testBit_and,
        hfb]
  · simp [FormatOptions.addFlags, Nat.or_assoc, Nat.or_self]
  · simp [FormatOptions.clearFlags, Nat.and_assoc, Nat.and_self]
  · simp only [FormatOptions.addFlags]
    rw [Nat.or_assoc, Nat.or_assoc, Nat.or_comm (mask32 a) (mask32 b)]
  · simp only [FormatOptions.clearFlags]
    rw [Nat.and_assoc, Nat.and_assoc,
      Nat.and_comm (4294967295 ^^^ mask32 a) (4294967295 ^^^ mask32 b)]
  · intro hdisj
    simp only [FormatOptions.addFlags, FormatOptions.clearFlags,
      FormatOptions.mk.injEq, and_true]
    apply Nat.eq_of_testBit_eq
    intro j
    have hdj : (mask32 a).testBit j = true → (mask32 b).testBit j = false := by
      have := congrArg (fun x => Nat.testBit x j) hdisj
      simpa [Nat.testBit_and, Nat.zero_testBit] using this
    rcases ha : (mask32 a).testBit j with _ | _
    · simp [Nat.testBit_and, Nat.testBit_or, ha]
    · have hb : (mask32 b).testBit j = false := hdj ha
      have hj : j < 32 := by
        by_contra hge
        rw [testBit_mask32_high a j (Nat.le_of_not_lt hge)] at ha
        exact Bool.false_ne_true ha
      simp [Nat.testBit_and, Nat.testBit_or, Nat.testBit_xor,
        testBit_allones, ha, hb, hj]

theorem C4_flag_algebra_witness :
    ((FormatOptions.init.addFlags 3).flags.testBit 1
        = (FormatOptions.init.flags.testBit 1 || (mask32 3).testBit 1))
      ∧ ((FormatOptions.init.clearFlags 4).flags.testBit 1
        = (FormatOptions.init.flags.testBit 1 && !(mask32 4).testBit 1))
      ∧ ((FormatOptions.init.addFlags 3).addFlags 3
        = FormatOptions.init.addFlags 3)
      ∧ ((FormatOptions.init.clearFlags 4).clearFlags 4
        = FormatOptions.init.clearFlags 4)
      ∧ ((FormatOptions.init.addFlags 3).addFlags 4
        = (FormatOptions.init.addFlags 4).addFlags 3)
      ∧ ((FormatOptions.init.clearFlags 3).clearFlags 4
        = (FormatOptions.init.clearFlags 4).clearFlags 3)
      ∧ ((mask32 3 &&& mask32 4) = 0 →
          (FormatOptions.init.addFlags 3).clearFlags 4
            = (FormatOptions.init.clearFlags 4).addFlags 3) :=
  C4_flag_algebra FormatOptions.init 3 4 1 (by decide)

/-- C10: every flag/indentation convenience on Logger is an exact
pass-through to its owned FormatOptions, touching no other Logger
state. -/
theorem C10_logger_passthrough (l : Logger) (m f n : Nat) (t : Fin 4) :
    l.flags = l.options.flags
      ∧ l.hasFlag f = l.options.hasFlag f
      ∧ l.indentation t = l.options.indentation t
      ∧ l.setFlags m = Logger.mk (l.options.setFlags m)
      ∧ l.addFlags m = Logger.mk (l.options.addFlags m)
      ∧ l.clearFlags m = Logger.mk (l.options.clearFlags m)
      ∧ l.setIndentation t n = Logger.mk (l.options.setIndentation t n)
      ∧ l.resetIndentation t = Logger.mk (l.options.resetIndentation t) :=
  ⟨rfl, rfl, rfl, rfl, rfl, rfl, rfl, rfl⟩

theorem takeWhile_all_append {pre rest : List Nat}
    (hpre : ∀ b ∈ pre, b ≠ 0) :
    (pre ++ 0 :: rest).takeWhile (fun b => b ≠ 0) = pre := by
  induction pre with
  | nil => simp [List.takeWhile]
  | cons x xs ih =>
    have hx : x ≠ 0 := hpre x (by simp)
    have hx' : decide (x ≠ 0) = true := by simp [hx]
    have ihx := ih (fun b hb => hpre b (List.mem_cons_of_mem x hb))
    simp only [List.cons_append, List.takeWhile, hx', List.append_eq]
    rw [ihx]

/-- C7: `Logger::log(data, size)` forwards the span unchanged to the
sink primitive `_log` (with SIZE_MAX as the default size argument); a
span given with size SIZE_MAX is treated as a null-terminated string
(exactly the bytes before the first zero byte are delivered), otherwise
exactly `size` bytes are delivered. -/
theorem C7_log_forwarding {σ : Type} (sinkLog : List Nat → Nat → σ × Nat)
    (data pre rest : List Nat) (size : Nat)
    (hpre : ∀ b ∈ pre, b ≠ 0) (hsz : size ≠ SIZE_MAX)
    (hle : size ≤ data.length) :
    Logger.log sinkLog data size = sinkLog data size
      ∧ Logger.log sinkLog data = sinkLog data SIZE_MAX
      ∧ resolveSpan (pre ++ 0 :: rest) SIZE_MAX = pre
      ∧ resolveSpan data size = data.take size
      ∧ (resolveSpan data size).length = size := by
  refine ⟨rfl, rfl, ?_, ?_, ?_⟩
  · simp only [resolveSpan, if_pos rfl]
    exact takeWhile_all_append hpre
  · simp [resolveSpan, hsz]
  · simp [resolveSpan, hsz, List.length_take, Nat.min_eq_left hle]

theorem C7_log_forwarding_witness :
    Logger.log (fun (d : List Nat) (s : Nat) => (d.length, s)) [1, 2, 0, 3] 2
        = (fun (d : List Nat) (s : Nat) => (d.length, s)) [1, 2, 0, 3] 2
      ∧ Logger.log (fun (d : List Nat) (s : Nat) => (d.length, s)) [1, 2, 0, 3]
        = (fun (d : List Nat) (s : Nat) => (d.length, s)) [1, 2, 0, 3] SIZE_MAX
      ∧ resolveSpan ([5, 6] ++ 0 :: [7]) SIZE_MAX = [5, 6]
      ∧ resolveSpan [1, 2, 0, 3] 2 = List.take 2 [1, 2, 0, 3]
      ∧ (resolveSpan [1, 2, 0, 3] 2).length = 2 :=
  C7_log_forwarding (fun (d : List Nat) (s : Nat) => (d.length, s))
    [1, 2, 0, 3] [5, 6] [7] 2 (by decide) (by decide) (by decide)

/-- C1: if every `_log` call in a sequence on a StringLogger returns
success, the buffer exposed by `data()`/`size()` is exactly the
byte-for-byte concatenation of the logged spans in call order. -/
theorem C1_buffer_is_concat (cap : Nat) (st : StringLogger)
    (calls : List (List Nat × Nat))
    (h : ∀ e ∈ (StringLogger.runLogs cap st calls).2, e = kErrorOk) :
    (StringLogger.runLogs cap st calls).1.data
        = st.data ++ (calls.map (fun c => resolveSpan c.1 c.2)).flatten
      ∧ (StringLogger.runLogs cap st calls).1.size
        = st.size + (calls.map (fun c => resolveSpan c.1 c.2)).flatten.length := by
  induction calls generalizing st with
  | nil =>
    simpa [StringLogger.runLogs, StringLogger.data, StringLogger.size] using rfl
  | cons c cs ih =>
    by_cases hc :
        st._content.length + (resolveSpan c.1 c.2).length ≤ cap
    · have hrun :
          StringLogger.runLogs cap st (c :: cs)
            = (let rest := StringLogger.runLogs cap
                 ⟨st._content ++ resolveSpan c.1 c.2⟩ cs
               (rest.1, kErrorOk :: rest.2)) := by
        simp [StringLogger.runLogs, StringLogger.logOne, hc]
      have hrest :
          ∀ e ∈ (StringLogger.runLogs cap
              ⟨st._content ++ resolveSpan c.1 c.2⟩ cs).2, e = kErrorOk := by
        intro e he
        apply h
        rw [hrun]
        exact List.mem_cons_of_mem _ he
      have := ih ⟨st._content ++ resolveSpan c.1 c.2⟩ hrest
      rw [hrun]
      simp only [StringLogger.data, StringLogger.size] at this ⊢
      refine ⟨?_, ?_⟩
      · rw [this.1]
        simp [List.append_assoc]
      · rw [this.2]
        simp [List.length_append]
        omega
    · exfalso
      have hhead : kErrorOutOfMemory = kErrorOk := by
        apply h
        simp [StringLogger.runLogs, StringLogger.logOne, hc]
      exact absurd hhead (by decide)

theorem C1_buffer_is_concat_witness :
    (StringLogger.runLogs 100 StringLogger.init
        [([104, 105], 2), ([33, 0], SIZE_MAX)]).1.data
        = StringLogger.init.data
          ++ (([([104, 105], 2), ([33, 0], SIZE_MAX)]).map
              (fun c => resolveSpan c.1 c.2)).flatten
      ∧ (StringLogger.runLogs 100 StringLogger.init
        [([104, 105], 2), ([33, 0], SIZE_MAX)]).1.size
        = StringLogger.init.size
          + (([([104, 105], 2), ([33, 0], SIZE_MAX)]).map
              (fun c => resolveSpan c.1 c.2)).flatten.length :=
  C1_buffer_is_concat 100 StringLogger.init
    [([104, 105], 2), ([33, 0], SIZE_MAX)] (by decide)

/-- C2: a FileLogger whose handle is null (constructed null, or set to
null via `setFile`) returns success from every `_log` call and performs
no I/O: its state, including the absent stream, is unchanged, exactly
like a working sink that discards everything. -/
theorem C2_null_file_discards (l : FileLogger) (data : List Nat) (size : Nat)
    (h : l.file = none) :
    FileLogger.logOne l data size = (l, kErrorOk)
      ∧ (FileLogger.logOne l data size).2 = kErrorOk
      ∧ (l.setFile none).logOne data size = (l.setFile none, kErrorOk)
      ∧ (FileLogger.init none).logOne data size
        = (FileLogger.init none, kErrorOk) := by
  obtain ⟨f⟩ := l
  simp only [FileLogger.file] at h
  subst h
  exact ⟨rfl, rfl, rfl, rfl⟩

theorem C2_null_file_discards_witness :
    FileLogger.logOne (FileLogger.init none) [65, 66] 2
        = (FileLogger.init none, kErrorOk)
      ∧ (FileLogger.logOne (FileLogger.init none) [65, 66] 2).2 = kErrorOk
      ∧ ((FileLogger.init none).setFile none).logOne [65, 66] 2
        = ((FileLogger.init none).setFile none, kErrorOk)
      ∧ (FileLogger.init none).logOne [65, 66] 2
        = (FileLogger.init none, kErrorOk) :=
  C2_null_file_discards (FileLogger.init none) [65, 66] 2 rfl

theorem labelPlaceholder_ne_empty (n : Nat) : labelPlaceholder n ≠ "" := by
  intro h
  have hlen := congrArg String.length h
  rw [labelPlaceholder, String.length_append] at hlen
  have h1 : String.length "L" = 1 := rfl
  have h0 : String.length "" = 0 := rfl
  omega

theorem regPlaceholder_ne_empty (t n : Nat) : regPlaceholder t n ≠ "" := by
  intro h
  have hlen := congrArg String.length h
  rw [regPlaceholder, String.length_append, String.length_append,
    String.length_append] at hlen
  have h1 : String.length "r" = 1 := rfl
  have h2 : String.length "_" = 1 := rfl
  have h0 : String.length "" = 0 := rfl
  omega

/-- C3: for an unresolved label or register id, `Logging::formatLabel`
and `Logging::formatRegister` return success, append a non-empty
placeholder that depends only on the id (and register kind), hence two
calls with the same unresolved id and the same inputs append identical
text. -/
theorem C3_placeholder_success (sb : String) (flags : Nat)
    (labelNames : Nat → Option String) (labelId : Nat)
    (physNames : Nat → Nat → Nat → Option String)
    (archId regType regId : Nat)
    (hl : labelNames labelId = none)
    (hr : physNames archId regType regId = none) :
    Logging.formatLabel sb flags labelNames labelId
        = (sb ++ labelPlaceholder labelId, kErrorOk)
      ∧ labelPlaceholder labelId ≠ ""
      ∧ Logging.formatRegister sb flags physNames archId regType regId
        = (sb ++ regPlaceholder regType regId, kErrorOk)
      ∧ regPlaceholder regType regId ≠ "" := by
  refine ⟨?_, labelPlaceholder_ne_empty labelId, ?_,
    regPlaceholder_ne_empty regType regId⟩
  · simp [Logging.formatLabel, hl]
  · simp [Logging.formatRegister, hr]

theorem C3_placeholder_success_witness :
    Logging.formatLabel "x" 0 (fun j => none) 7
        = ("x" ++ labelPlaceholder 7, kErrorOk)
      ∧ labelPlaceholder 7 ≠ ""
      ∧ Logging.formatRegister "x" 0 (fun j k m => none) 1 2 3
        = ("x" ++ regPlaceholder 2 3, kErrorOk)
      ∧ regPlaceholder 2 3 ≠ "" :=
  C3_placeholder_success "x" 0 (fun j => none) 7 (fun j k m => none)
    1 2 3 rfl rfl

theorem hexDump_length (bs : List Nat) :
    (hexDump bs).length = 2 * bs.length := by
  show ((bs.map byteHex).flatten).length = 2 * bs.length
  induction bs with
  | nil => rfl
  | cons b xs ih =>
    simp only [List.map_cons, List.flatten_cons, List.length_append, ih,
      byteHex, List.length_cons, List.length_nil]
    omega

/-- C8: the line composer's column widths are the fixed constants 44
(instruction-text target width) and 26 (maximum hex-dump width): the
output of `formatLine` splits into a padded instruction-text field of
width exactly `kMaxInstLineSize = 44`, a hex part of length at most
`kMaxBinarySize = 26`, and the trailing comment; no user option enters. -/
theorem C8_line_widths (instText : String) (showMC : Bool) (bin : List Nat)
    (comment : String) (h : instText.length ≤ Logging.kMaxInstLineSize) :
    Logging.kMaxInstLineSize = 44
      ∧ Logging.kMaxBinarySize = 26
      ∧ ∃ padded hexPart,
          Logging.formatLine instText showMC bin comment
              = padded ++ hexPart ++ comment
            ∧ padded.length = Logging.kMaxInstLineSize
            ∧ hexPart.length ≤ Logging.kMaxBinarySize := by
  refine ⟨rfl, rfl,
    instText ++ String.mk
      (List.replicate (Logging.kMaxInstLineSize - instText.length) ' '),
    (if showMC then hexDump (bin.take (Logging.kMaxBinarySize / 2)) else ""),
    rfl, ?_, ?_⟩
  · simp only [String.length_append]
    have hmk :
        (String.mk (List.replicate
            (Logging.kMaxInstLineSize - instText.length) ' ')).length
          = Logging.kMaxInstLineSize - instText.length :=
      List.length_replicate _ _
    rw [hmk]
    omega
  · cases showMC with
    | false =>
      have h0 : String.length "" = 0 := rfl
      simp only [Bool.false_eq_true, if_false, h0, Logging.kMaxBinarySize]
      omega
    | true =>
      have ht : (bin.take (Logging.kMaxBinarySize / 2)).length
          ≤ Logging.kMaxBinarySize / 2 := by
        simp [List.length_take]
      have h26 : Logging.kMaxBinarySize = 26 := rfl
      simp only [hexDump_length]
      simp only [if_true, eq_self_iff_true, ite_true]
      rw [hexDump_length]
      omega

theorem C8_line_widths_witness :
    Logging.kMaxInstLineSize = 44
      ∧ Logging.kMaxBinarySize = 26
      ∧ ∃ padded hexPart,
          Logging.formatLine "mov eax, 1" true [184, 1, 0, 0, 0] "; x"
              = padded ++ hexPart ++ "; x"
            ∧ padded.length = Logging.kMaxInstLineSize
            ∧ hexPart.length ≤ Logging.kMaxBinarySize :=
  C8_line_widths "mov eax, 1" true [184, 1, 0, 0, 0] "; x" (by decide)

end Asmjit
